import Mathlib

/-!
# Verification of the A2A-Aptos bidding-system monitor agent

A shallow embedding, in Lean 4, of the parts of
`src/bidding_system/service_agent_monitor.py` (and of the helpers in
`src/scripts/intent-bid-scripts/common_bidding.py`) that the specification's
claims are about: the checkpoint store (`save_state` / `load_state`), the
indexer query (`query_indexer_for_new_tasks`), the bid submission
(`place_bid`), single-event processing (`process_task_event`) and the main
monitoring loop (`monitor_tasks`).

Conventions of the embedding:
* Python dictionaries / JSON values are modelled by the inductive `Json`.
* Code that can raise an uncaught exception is modelled with `Except PyErr`;
  code that catches every exception and turns it into a boolean result is
  modelled as a total function returning `Bool`.
* The external world (the indexer's HTTP responses, the ledger's verdict on a
  submitted bid transaction, the times at which the shutdown signal is
  observed) is passed in explicitly, one record per poll cycle.
* `save_state` performs a durable write; the embedding records each call as a
  `Save` value in a chronological trace (a failed file write is logged and
  ignored by the Python code, so it does not influence control flow).
-/

namespace BiddingMonitor

/-- JSON values, as produced by `json.load` / `response.json()`.
Numeric literals are modelled as integers (the payload fields the monitor
reads are integer-valued). -/
inductive Json where
  | null
  | bool (b : Bool)
  | num (n : Int)
  | str (s : String)
  | arr (elems : List Json)
  | obj (fields : List (String × Json))

/-- Lookup of a key in the field list of a JSON object (Python dict access). -/
def lookupField (fields : List (String × Json)) (k : String) : Option Json :=
  match fields with
  | [] => none
  | (k2, v) :: rest => if k2 = k then some v else lookupField rest k

/-- Python exceptions that escape the code under consideration. -/
inductive PyErr where
  | attributeError
  | typeError
  | valueError
deriving DecidableEq, Repr

/-- Decimal digit run parsed as a natural number; `none` if any character is
not a digit. -/
def parseDigitsAux : List Char → Nat → Option Nat
  | [], acc => some acc
  | c :: cs, acc =>
    if c.isDigit then parseDigitsAux cs (acc * 10 + (c.toNat - 48)) else none

/-- The Python builtin `int(s)` on a string: an optional sign followed by
decimal digits.  (Surrounding whitespace and `_` digit separators, which
Python also accepts, are not modelled; no claim depends on them.) -/
def parseIntStr (s : String) : Option Int :=
  match s.toList with
  | [] => none
  | '-' :: cs =>
    match cs with
    | [] => none
    | _ => (parseDigitsAux cs 0).map (fun n => -(n : Int))
  | '+' :: cs =>
    match cs with
    | [] => none
    | _ => (parseDigitsAux cs 0).map (fun n => (n : Int))
  | cs => (parseDigitsAux cs 0).map (fun n => (n : Int))

/-- The Python builtin `int(x)` applied to a JSON-decoded value:
integers pass through, booleans become 0/1, decimal strings are parsed
(`ValueError` on a non-numeric string), and `None` / lists / objects raise
`TypeError`. -/
def pyIntOfJson : Json → Except PyErr Int
  | .num n => .ok n
  | .bool b => .ok (if b then 1 else 0)
  | .str s =>
    match parseIntStr s with
    | some n => .ok n
    | none => .error .valueError
  | _ => .error .typeError

/-- Content of the checkpoint file `monitor_state.json` as seen by
`load_state`: the file may be absent, unreadable (`IOError` on open/read),
readable but not decodable as JSON (`json.JSONDecodeError`), or decodable to
some JSON value. -/
inductive FileContent where
  | absent
  | unreadable
  | undecodable
  | decoded (j : Json)

/-- `ServiceAgentMonitor.load_state` (service_agent_monitor.py lines 87-98).
Returns 0 when the file is absent; catches `IOError` and
`json.JSONDecodeError` and returns 0.  For a decoded JSON value it runs
`int(state.get("last_processed_sequence_number", 0))`: on a non-object this
raises `AttributeError` (no `.get` method), and on an object whose field
value is not convertible by `int()` it raises `ValueError`/`TypeError`;
neither is in the caught exception classes, so it escapes. -/
def load_state : FileContent → Except PyErr Int
  | .absent => .ok 0
  | .unreadable => .ok 0
  | .undecodable => .ok 0
  | .decoded j =>
    match j with
    | .obj fields =>
      pyIntOfJson ((lookupField fields "last_processed_sequence_number").getD (.num 0))
    | _ => .error .attributeError

/-! ## Bid submission and single-event processing -/

/-- Verdict of the external ledger (and of the network) on one submitted
`place_bid` transaction.  The Python code never inspects the reason: it only
observes whether the awaited submission/confirmation raised. -/
inductive LedgerOutcome where
  | confirmed
  | rejectedDuplicateBid
  | rejectedTaskResolved
  | rejectedOther
  | transportError
deriving DecidableEq, Repr

/-- `ServiceAgentMonitor.place_bid` (service_agent_monitor.py lines 148-189).
The whole body is one `try` block that returns `True` only when the
transaction is submitted and `wait_for_transaction` confirms it; every raised
exception - a network failure as well as an on-chain abort surfaced by the
confirmation wait (duplicate bid, task no longer open, any other abort) -
lands in the bare `except Exception` and yields `False`.  No rejection
reason is distinguished. -/
def place_bid (outcome : LedgerOutcome) : Bool :=
  match outcome with
  | .confirmed => true
  | _ => false

/-- `int(event["sequence_number"])`: the key must exist on the event object
and its value must be `int()`-convertible. -/
def eventSeq (ev : Json) : Option Int :=
  match ev with
  | .obj fields =>
    match lookupField fields "sequence_number" with
    | some v => (pyIntOfJson v).toOption
    | none => none
  | _ => none

/-- `event["data"]["task_id"]`. -/
def eventTaskId (ev : Json) : Option Json :=
  match ev with
  | .obj fields =>
    match lookupField fields "data" with
    | some (.obj dfields) => lookupField dfields "task_id"
    | _ => none
  | _ => none

/-- `int(event["data"]["max_budget"])`. -/
def eventBudget (ev : Json) : Option Int :=
  match ev with
  | .obj fields =>
    match lookupField fields "data" with
    | some (.obj dfields) =>
      match lookupField dfields "max_budget" with
      | some v => (pyIntOfJson v).toOption
      | none => none
    | _ => none
  | _ => none

/-- An event from which `process_task_event` can extract all three fields it
needs. -/
def wellFormedEvent (ev : Json) : Bool :=
  (eventSeq ev).isSome && (eventTaskId ev).isSome && (eventBudget ev).isSome

/-- `ServiceAgentMonitor.process_task_event` (lines 191-217).  The body is a
`try` block: it extracts `sequence_number`, `data`, `task_id`, `max_budget`
(any `KeyError`/`ValueError`/`TypeError` is caught by `except Exception` and
the function returns `False`), computes the bid price, awaits `place_bid`,
and on success calls `save_state(current_seq_num)` and returns `True`;
otherwise it returns `False` without saving.  The result is the returned
boolean together with the list of `save_state` arguments (the second
component is `[s]` exactly on the success path). -/
def process_task_event (ev : Json) (outcome : LedgerOutcome) : Bool × List Int :=
  match eventSeq ev, eventTaskId ev, eventBudget ev with
  | some s, some _, some _ =>
    if place_bid outcome then (true, [s]) else (false, [])
  | _, _, _ => (false, [])

/-! ## The indexer query -/

/-- Does the first list occur as a leading run of the second? -/
def leadingRun : List Char → List Char → Bool
  | [], _ => true
  | _ :: _, [] => false
  | c :: cs, d :: ds => c = d && leadingRun cs ds

/-- Does the first list occur contiguously somewhere inside the second? -/
def containsRun (pat : List Char) : List Char → Bool
  | [] => leadingRun pat []
  | d :: ds => leadingRun pat (d :: ds) || containsRun pat ds

/-- The Python membership test `k in x` for a string `k` against a
JSON-decoded value: key membership for a dict, element equality for a list
(only string elements can equal a string), substring test for a string, and
`TypeError` for the remaining types (not iterable). -/
def pyContains (j : Json) (k : String) : Except PyErr Bool :=
  match j with
  | .obj fields => .ok (lookupField fields k).isSome
  | .arr elems =>
    .ok (elems.any (fun e => match e with | .str s => s = k | _ => false))
  | .str s => .ok (containsRun k.toList s.toList)
  | _ => .error .typeError

/-- What the network and the indexer did for one `requests.post` call:
a `requests.RequestException` (timeout, connection failure, or an HTTP error
status raised by `raise_for_status`), a 200 response whose body is not
decodable JSON (`json.JSONDecodeError` from `response.json()`), or a decoded
JSON body. -/
inductive QueryOutcome where
  | timeout
  | httpError
  | badBody
  | body (j : Json)

/-- Response handling of `ServiceAgentMonitor.query_indexer_for_new_tasks`
(lines 125-146).  `requests.RequestException` and `json.JSONDecodeError` are
caught and an empty list is returned; a body containing an `"errors"` key
(GraphQL-level error) also yields an empty list; otherwise the code returns
`data.get("data", {}).get("events", [])`.  A decoded body on which `in` or
`.get` is unsupported raises (`TypeError` / `AttributeError`), and those
exceptions are not caught here - they escape to the monitoring loop. -/
def query_indexer_for_new_tasks (resp : QueryOutcome) : Except PyErr Json :=
  match resp with
  | .timeout => .ok (.arr [])
  | .httpError => .ok (.arr [])
  | .badBody => .ok (.arr [])
  | .body j =>
    match pyContains j "errors" with
    | .error e => .error e
    | .ok true => .ok (.arr [])
    | .ok false =>
      match j with
      | .obj fields =>
        match (lookupField fields "data").getD (.obj []) with
        | .obj dfields => .ok ((lookupField dfields "events").getD (.arr []))
        | _ => .error .attributeError
      | _ => .error .attributeError

/-- The GraphQL request that `query_indexer_for_new_tasks` sends (its
hard-coded query document plus the variables dict, lines 102-123). -/
structure FeedQuery where
  account_address : String
  event_type : String
  seq_gt : Int
  ascending : Bool
  limit : Nat
deriving DecidableEq, Repr

/-- The request built at lines 102-123: filter
`sequence_number: { _gt: $last_seq_num }` with the monitor's current cursor,
`order_by: { sequence_number: asc }`, `limit: 25`. -/
def query_request (platform_address event_type : String)
    (last_processed_seq_num : Int) : FeedQuery :=
  { account_address := platform_address
    event_type := event_type
    seq_gt := last_processed_seq_num
    ascending := true
    limit := 25 }

instance : IsTotal (Int × Json) (fun a b => a.1 ≤ b.1) :=
  ⟨fun a b => le_total a.1 b.1⟩

instance : IsTrans (Int × Json) (fun a b => a.1 ≤ b.1) :=
  ⟨fun _ _ _ hab hbc => le_trans hab hbc⟩

/-- The indexer's evaluation of such a request over its event log (the Event
Feed interface of spec section 4.2): keep the events with sequence number
strictly greater than `seq_gt`, order them by ascending sequence number, and
return the first `limit` of them. -/
def feedAnswer (log : List (Int × Json)) (q : FeedQuery) : List (Int × Json) :=
  ((log.filter (fun e => decide (q.seq_gt < e.1))).insertionSort
    (fun a b => a.1 ≤ b.1)).take q.limit

/-! ## The monitoring loop -/

/-- Which statement performed a `save_state` call. -/
inductive SaveTag where
  | process
  | shutdownCheck
  | final
deriving DecidableEq, Repr

/-- One recorded `save_state(value)` call.  `tag = process` for the save on
the success path of `process_task_event` (line 209), `tag = shutdownCheck`
for the save made when the stop signal is observed before an event inside a
batch (line 245), and `tag = final` for the save in the `finally` block of
`monitor_tasks` (line 272). -/
structure Save where
  value : Int
  tag : SaveTag
deriving DecidableEq, Repr

/-- Result of running the event loop of lines 241-253 over one batch. -/
structure BatchResult where
  cursor : Int
  saves : List Save
  early : Bool
deriving DecidableEq, Repr

/-- The `for event in events` loop of `monitor_tasks` (lines 241-253).
`cursor` is the local `last_seq_num`; `outs` gives the ledger's verdict on
the i-th bid actually submitted; `sds` gives the value of
`shutdown_event.is_set()` at the check (line 243) before the i-th event
(missing entries default to `False` / `transportError`).  Before each event:
if the stop signal is observed, `save_state(last_seq_num)` runs and the
function returns (`early = true`).  Otherwise the event is processed; on
success `last_seq_num` becomes `int(event["sequence_number"])` (line 250),
on failure the batch is abandoned (`break`, line 253). -/
def processBatch : Int → List Json → List LedgerOutcome → List Bool → BatchResult
  | cursor, [], _, _ => ⟨cursor, [], false⟩
  | cursor, ev :: evs, outs, sds =>
    if sds.headD false then
      ⟨cursor, [⟨cursor, .shutdownCheck⟩], true⟩
    else
      match process_task_event ev (outs.headD .transportError) with
      | (true, saved) =>
        match eventSeq ev with
        | some s =>
          let r := processBatch s evs outs.tail sds.tail
          ⟨r.cursor, saved.map (fun v => ⟨v, .process⟩) ++ r.saves, r.early⟩
        | none => ⟨cursor, saved.map (fun v => ⟨v, .process⟩), false⟩
      | (false, _) => ⟨cursor, [], false⟩

/-- `asyncio.wait_for(asyncio.sleep(d), timeout=t)`: the seconds that
actually elapse, and whether `asyncio.TimeoutError` was raised (the sleep is
cancelled as soon as the timeout expires). -/
def wait_for_sleep (d t : ℚ) : ℚ × Bool :=
  (min d t, t < d)

/-- Python truthiness (negated) of a JSON-decoded value, for the
`if not events:` test at line 231. -/
def jsonFalsy : Json → Bool
  | .null => true
  | .bool b => !b
  | .num n => n = 0
  | .str s => s = ""
  | .arr elems => elems.isEmpty
  | .obj fields => fields.isEmpty

/-- Iterating `for event in events` over a JSON-decoded value: a list yields
its elements, a dict yields its keys, a string yields its characters, and the
remaining types raise `TypeError`. -/
def iterEvents : Json → Except PyErr (List Json)
  | .arr elems => .ok elems
  | .obj fields => .ok (fields.map (fun f => Json.str f.1))
  | .str s => .ok (s.toList.map (fun c => Json.str (String.mk [c])))
  | _ => .error .typeError

/-- The external world of one poll cycle: whether the shutdown signal is
already observed at the `while` test (line 226), the network/indexer
behavior of this cycle's query, the ledger's verdicts for the bids submitted
in this cycle, and the shutdown-flag values observed at the per-event checks. -/
structure CycleWorld where
  shutdownAtTop : Bool
  resp : QueryOutcome
  outcomes : List LedgerOutcome
  shutdownDuring : List Bool

/-- Outcome of one iteration of the `while` body (lines 227-267): the new
`last_seq_num`, the `save_state` calls made, whether the iteration executed
the in-batch `return` (line 246), and the seconds spent in the wait primitive
at the end of the iteration (`none` when the iteration returned). -/
structure CycleResult where
  cursor : Int
  saves : List Save
  exitEarly : Bool
  wait : Option ℚ

/-- One iteration of the `while` body of `monitor_tasks` (lines 227-267).
An exception escaping the query lands in `except Exception` (line 261) and is
followed by the 10-second backoff wait; an empty (falsy) result triggers the
poll-interval wait (line 235); otherwise the batch is processed and, unless
the in-batch `return` ran, a 2-second pause follows (line 257).  Every wait
is wrapped in `asyncio.wait_for(..., timeout=1.0)` whose `TimeoutError` is
caught with `continue`, so the elapsed time is capped at 1 second. -/
def stepCycle (poll_interval : ℚ) (cursor : Int) (w : CycleWorld) : CycleResult :=
  match query_indexer_for_new_tasks w.resp with
  | .error _ => ⟨cursor, [], false, some (wait_for_sleep 10 1).1⟩
  | .ok j =>
    if jsonFalsy j then
      ⟨cursor, [], false, some (wait_for_sleep poll_interval 1).1⟩
    else
      match iterEvents j with
      | .error _ => ⟨cursor, [], false, some (wait_for_sleep 10 1).1⟩
      | .ok events =>
        let r := processBatch cursor events w.outcomes w.shutdownDuring
        if r.early then ⟨r.cursor, r.saves, true, none⟩
        else ⟨r.cursor, r.saves, false, some (wait_for_sleep 2 1).1⟩

/-- The events a cycle actually iterates over (empty when the query failed,
raised, or returned a falsy value). -/
def cycleEvents (w : CycleWorld) : List Json :=
  match query_indexer_for_new_tasks w.resp with
  | .error _ => []
  | .ok j =>
    if jsonFalsy j then []
    else
      match iterEvents j with
      | .error _ => []
      | .ok events => events

/-- State of a `monitor_tasks` run after consuming a finite list of cycle
worlds: still inside the `while` loop, or exited (the `finally` block has
run).  Both carry the current `last_seq_num` and the chronological trace of
`save_state` calls. -/
inductive RunState where
  | running (cursor : Int) (saves : List Save)
  | exited (cursor : Int) (saves : List Save)
deriving DecidableEq, Repr

/-- The `try/while/finally` of `monitor_tasks` (lines 225-273), driven by one
`CycleWorld` per iteration.  When the `while` condition observes the shutdown
signal the loop ends and the `finally` block saves; when the in-batch
`return` (line 246) runs, the `finally` block runs as well - Python executes
`finally` also on `return` - so a second save follows the line-245 save. -/
def runMonitor (poll_interval : ℚ) (cursor : Int) : List CycleWorld → RunState
  | [] => .running cursor []
  | w :: ws =>
    if w.shutdownAtTop then .exited cursor [⟨cursor, .final⟩]
    else
      let r := stepCycle poll_interval cursor w
      if r.exitEarly then .exited r.cursor (r.saves ++ [⟨r.cursor, .final⟩])
      else
        match runMonitor poll_interval r.cursor ws with
        | .running c2 s2 => .running c2 (r.saves ++ s2)
        | .exited c2 s2 => .exited c2 (r.saves ++ s2)

/-- `monitor_tasks` entry (lines 219-273): `last_seq_num = self.load_state()`
then the loop.  An exception escaping `load_state` propagates to `main`. -/
def monitor_tasks (poll_interval : ℚ) (checkpoint : FileContent)
    (ws : List CycleWorld) : Except PyErr RunState :=
  (load_state checkpoint).map (fun c0 => runMonitor poll_interval c0 ws)

/-- Default of `MONITOR_POLL_INTERVAL` (line 53). -/
def default_poll_interval : ℚ := 30

def savesOf : RunState → List Save
  | .running _ s => s
  | .exited _ s => s

def cursorOf : RunState → Int
  | .running c _ => c
  | .exited c _ => c

/-- `save_state` calls not made by `process_task_event`, i.e. the writes on
the shutdown path (line 245 and the `finally` block). -/
def isShutdownSave (s : Save) : Bool :=
  match s.tag with
  | .process => false
  | _ => true

/-- The sequence numbers `l` are strictly ascending and all exceed `c`. -/
def ascendingFrom (c : Int) : List Int → Bool
  | [] => true
  | s :: rest => (decide (c < s)) && ascendingFrom s rest

/-- The event feed honors its interface contract (spec section 4.2) along a
run: in every cycle, the parseable sequence numbers of the delivered events
are strictly ascending and strictly greater than the cursor the query was
issued with. -/
def goodFeed (poll_interval : ℚ) : Int → List CycleWorld → Bool
  | _, [] => true
  | c, w :: ws =>
    ascendingFrom c ((cycleEvents w).filterMap eventSeq) &&
      goodFeed poll_interval (stepCycle poll_interval c w).cursor ws

/-! ## The bid-price computation in binary64 arithmetic

`bid_price = int(max_budget * self.bid_price_ratio)` (line 202) runs in
Python floats, i.e. IEEE-754 binary64: the configured ratio is the binary64
value nearest the configured decimal, the integer budget is converted to
binary64, the product is rounded once more, and `int()` truncates toward
zero.  The model below implements round-to-nearest-even with a 53-bit
significand over exact rationals (normal range only; overflow and subnormals
are far outside every value that occurs here). -/

/-- A dyadic rational `m / 2^e` (with `e` possibly negative): the exact value
of a binary64 floating-point number. -/
structure Dyadic where
  m : Int
  e : Int
deriving DecidableEq, Repr

/-- The rational value of a dyadic. -/
def Dyadic.toRat (d : Dyadic) : ℚ :=
  (d.m : ℚ) * (2 : ℚ) ^ (-d.e)

/-- Scale the positive fraction `a / b` by a power of two until it lies in
`[2^52, 2^53)`: multiplying `a` by 2 raises the exponent, multiplying `b` by
2 lowers it; the invariant is `value * 2^e = a / b`.  The fuel bounds the
number of steps (4000 covers the whole binary64 range with a wide margin). -/
def normLoopZ : Nat → Int → Int → Int → Int × Int × Int
  | 0, a, b, e => (a, b, e)
  | fuel + 1, a, b, e =>
    if a < 2 ^ 52 * b then normLoopZ fuel (2 * a) b (e + 1)
    else if 2 ^ 53 * b ≤ a then normLoopZ fuel a (2 * b) (e - 1)
    else (a, b, e)

/-- Nearest integer to the positive fraction `a / b`, ties to even. -/
def halfEvenFrac (a b : Int) : Int :=
  let f := Int.fdiv a b
  let c := a - f * b
  if 2 * c < b then f
  else if b < 2 * c then f + 1
  else if f % 2 = 0 then f else f + 1

/-- The binary64 value nearest the positive fraction `a / b` (round to
nearest, ties to even; normal range). -/
def roundFrac (a b : Int) : Dyadic :=
  let t := normLoopZ 4000 a b 0
  ⟨halfEvenFrac t.1 t.2.1, t.2.2⟩

/-- The binary64 value nearest the fraction `a / b` (`b > 0`). -/
def float_of_frac (a b : Int) : Dyadic :=
  if a = 0 then ⟨0, 0⟩
  else if a < 0 then
    let d := roundFrac (-a) b
    ⟨-d.m, d.e⟩
  else roundFrac a b

/-- Conversion of a Python integer to binary64 (rounds once for magnitudes
beyond 2^53). -/
def intToDouble (n : Int) : Dyadic :=
  float_of_frac n 1

/-- Binary64 multiplication: the exact product, rounded once. -/
def mulDouble (x y : Dyadic) : Dyadic :=
  let a := x.m * y.m
  let e := x.e + y.e
  if 0 ≤ e then float_of_frac a ((2 : Int) ^ e.toNat)
  else float_of_frac (a * (2 : Int) ^ (-e).toNat) 1

/-- The Python builtin `int()` on a float value: truncation toward zero. -/
def truncDouble (x : Dyadic) : Int :=
  if 0 ≤ x.e then Int.tdiv x.m ((2 : Int) ^ x.e.toNat)
  else x.m * (2 : Int) ^ (-x.e).toNat

/-- Line 202, `bid_price = int(max_budget * self.bid_price_ratio)`, with
`ratio` the binary64 value of the configured `BID_PRICE_RATIO`: the integer
budget is converted to binary64, multiplied (one more rounding), truncated
toward zero. -/
def bid_price_calc (max_budget : Int) (ratio : Dyadic) : Int :=
  truncDouble (mulDouble (intToDouble max_budget) ratio)

/-- Line 54: `float(os.getenv("BID_PRICE_RATIO", 0.8))` with the default -
the binary64 value nearest 0.8. -/
def bid_ratio_default : Dyadic := float_of_frac 8 10

/-! ## Concrete sample data used in witnesses and counterexamples -/

/-- A well-formed task-published event with the given sequence number, shaped
like the indexer's `{sequence_number, data}` rows. -/
def sampleEvent (s : Int) : Json :=
  .obj [("sequence_number", .num s),
        ("data", .obj [("task_id", .str "task-1"), ("max_budget", .num 100000000)])]

/-- An event whose payload lacks the `data` object. -/
def sampleMalformed : Json :=
  .obj [("sequence_number", .num 9)]

/-- An indexer response body carrying the given event rows. -/
def sampleBody (evs : List Json) : Json :=
  .obj [("data", .obj [("events", .arr evs)])]

/-- A cycle whose query succeeds with no new events. -/
def emptyPollWorld : CycleWorld :=
  ⟨false, .body (sampleBody []), [], []⟩

/-- A cycle whose query response decodes to `{"data": null}`, on which
`.get` raises `AttributeError` (caught by the loop's backoff handler). -/
def raisingQueryWorld : CycleWorld :=
  ⟨false, .body (.obj [("data", .null)]), [], []⟩

/-- A cycle delivering events 5 and 6 where the bid for 5 confirms and the
bid for 6 fails in transit. -/
def failAfterSuccessWorld : CycleWorld :=
  ⟨false, .body (sampleBody [sampleEvent 5, sampleEvent 6]),
   [.confirmed, .transportError], []⟩

/-- A cycle delivering one event, with the stop signal observed at the
per-event check before it. -/
def midBatchShutdownWorld : CycleWorld :=
  ⟨false, .body (sampleBody [sampleEvent 5]), [], [true]⟩

/-- A cycle at whose top `while` test the stop signal is already observed. -/
def shutdownTopWorld : CycleWorld :=
  ⟨true, .timeout, [], []⟩

/-! ## Helper lemmas -/

/-- Any outcome other than ledger confirmation makes the bid submission
report failure. -/
theorem place_bid_eq_false {o : LedgerOutcome} (ho : o ≠ .confirmed) :
    place_bid o = false := by
  cases o with
  | confirmed => exact absurd rfl ho
  | rejectedDuplicateBid => rfl
  | rejectedTaskResolved => rfl
  | rejectedOther => rfl
  | transportError => rfl

/-- `process_task_event` reports failure and saves nothing whenever the
ledger outcome is not a confirmation. -/
theorem process_task_event_nonconfirmed (ev : Json) {o : LedgerOutcome}
    (ho : o ≠ .confirmed) :
    process_task_event ev o = (false, []) := by
  have hpb := place_bid_eq_false ho
  rcases hs : eventSeq ev with _ | s <;>
    rcases ht : eventTaskId ev with _ | t <;>
      rcases hb : eventBudget ev with _ | b <;>
        simp [process_task_event, hs, ht, hb, hpb]

/-- `process_task_event` reports failure and saves nothing on an event it
cannot parse. -/
theorem process_task_event_malformed (ev : Json) (o : LedgerOutcome)
    (h : wellFormedEvent ev = false) :
    process_task_event ev o = (false, []) := by
  rcases hs : eventSeq ev with _ | s
  · simp [process_task_event, hs]
  · rcases ht : eventTaskId ev with _ | t
    · simp [process_task_event, hs, ht]
    · rcases hb : eventBudget ev with _ | b
      · simp [process_task_event, hs, ht, hb]
      · exfalso
        simp [wellFormedEvent, hs, ht, hb] at h

/-- On a well-formed event with a confirmed outcome, `process_task_event`
succeeds and saves the event's sequence number. -/
theorem process_task_event_confirmed (ev : Json)
    (h : wellFormedEvent ev = true) :
    ∃ s, eventSeq ev = some s ∧
      process_task_event ev .confirmed = (true, [s]) := by
  simp only [wellFormedEvent, Bool.and_eq_true, Option.isSome_iff_exists] at h
  obtain ⟨⟨⟨s, hs⟩, ⟨t, ht⟩⟩, ⟨b, hb⟩⟩ := h
  exact ⟨s, hs, by simp [process_task_event, hs, ht, hb, place_bid]⟩

/-- A successful `process_task_event` means: the event parsed, the save list
is exactly its sequence number, and the ledger confirmed. -/
theorem process_task_event_true {ev : Json} {o : LedgerOutcome} {l : List Int}
    (h : process_task_event ev o = (true, l)) :
    ∃ s, eventSeq ev = some s ∧ l = [s] ∧ o = .confirmed := by
  have ho : o = .confirmed := by
    by_contra hne
    rw [process_task_event_nonconfirmed ev hne] at h
    simp at h
  subst ho
  unfold process_task_event at h
  rcases hs : eventSeq ev with _ | s <;> rw [hs] at h
  · simp at h
  · rcases ht : eventTaskId ev with _ | t <;> rw [ht] at h
    · simp at h
    · rcases hb : eventBudget ev with _ | b <;> rw [hb] at h
      · simp at h
      · simp [place_bid] at h
        exact ⟨s, rfl, h.symm, rfl⟩

/-! ## Claim C6 - checkpoint load robustness -/

/-- C6 (counterexample): the claim "for every possible content of the
checkpoint file (... or containing arbitrary JSON) the load operation
returns a value and never raises" is false: `load_state` raises an uncaught
`ValueError` on the decodable JSON object whose field value is the string
"abc", an uncaught `AttributeError` on a decodable JSON array, and an
uncaught `TypeError` on a null field value - only `IOError` and
`json.JSONDecodeError` are caught. -/
theorem load_state_raises_on_unexpected_json :
    load_state (.decoded (.obj [("last_processed_sequence_number", .str "abc")]))
      = .error .valueError ∧
    load_state (.decoded (.arr [])) = .error .attributeError ∧
    load_state (.decoded (.obj [("last_processed_sequence_number", .null)]))
      = .error .typeError := by
  exact ⟨rfl, rfl, rfl⟩

/-- C6 (amended): `load_state` returns 0 without raising when the checkpoint
file is absent, unreadable, or not decodable as JSON; and for a decodable
JSON object it returns, without raising, the `int()` of the
`last_processed_sequence_number` field (defaulting to 0) whenever that value
is `int()`-convertible.  Decodable JSON of any other shape raises an
uncaught exception. -/
theorem load_state_safe_cases :
    load_state .absent = .ok 0 ∧
    load_state .unreadable = .ok 0 ∧
    load_state .undecodable = .ok 0 ∧
    ∀ fields n,
      pyIntOfJson ((lookupField fields "last_processed_sequence_number").getD (.num 0))
        = .ok n →
      load_state (.decoded (.obj fields)) = .ok n := by
  refine ⟨rfl, rfl, rfl, ?_⟩
  intro fields n h
  simpa [load_state] using h

/-- Witness for C6: the amended theorem applied at a well-formed checkpoint
object and at an absent file. -/
theorem load_state_safe_cases_witness :
    load_state (.decoded (.obj [("last_processed_sequence_number", .num 7)])) = .ok 7 ∧
    load_state .absent = .ok 0 :=
  ⟨load_state_safe_cases.2.2.2 [("last_processed_sequence_number", .num 7)] 7 rfl,
   load_state_safe_cases.1⟩

/-! ## Claim C1 - duplicate-bid rejections -/

/-- C1 (counterexample): a bid rejected by the registry as a duplicate (or
because the task is already resolved) surfaces as an exception from the
confirmation wait, so `place_bid` returns `False` and `process_task_event`
returns `False` - not `True` as the claim states - and the cursor does not
advance to the event's sequence number. -/
theorem duplicate_rejection_returns_false :
    process_task_event (sampleEvent 5) .rejectedDuplicateBid = (false, []) ∧
    process_task_event (sampleEvent 5) .rejectedTaskResolved = (false, []) ∧
    (processBatch 4 [sampleEvent 5] [.rejectedDuplicateBid] []).cursor = 4 ∧
    (4 : Int) ≠ 5 := by
  refine ⟨rfl, rfl, rfl, by decide⟩

/-- C1 (amended): the Monitor Agent does not distinguish rejection reasons:
every non-confirmed outcome of a bid submission - duplicate-bid and
task-already-resolved rejections included - makes `process_task_event`
return false with no state save, and the batch loop keeps the cursor
unchanged and stops, so the event is retried on the next poll instead of
being treated as an idempotent success. -/
theorem nonconfirmed_outcome_no_advance (ev : Json) (o : LedgerOutcome)
    (c : Int) (rest : List Json) (outs2 : List LedgerOutcome)
    (ho : o ≠ .confirmed) :
    process_task_event ev o = (false, []) ∧
    processBatch c (ev :: rest) (o :: outs2) [] = ⟨c, [], false⟩ := by
  have hp := process_task_event_nonconfirmed ev ho
  exact ⟨hp, by simp [processBatch, hp]⟩

/-- Witness for C1: the amended theorem applied at a concrete event and a
duplicate-bid rejection. -/
theorem nonconfirmed_outcome_no_advance_witness :
    process_task_event (sampleEvent 7) .rejectedDuplicateBid = (false, []) ∧
    processBatch 2 [sampleEvent 7] [.rejectedDuplicateBid] [] = ⟨2, [], false⟩ :=
  nonconfirmed_outcome_no_advance (sampleEvent 7) .rejectedDuplicateBid 2 [] []
    (by decide)

/-! ## Claim C10 - malformed event payloads -/

/-- C10: on an event whose payload is missing `sequence_number`, `task_id`
or `max_budget` (or whose values are not `int()`-convertible), the
catch-all in `process_task_event` turns the exception into a `False` return
(no raise escapes, the process stays alive), no state save occurs, and the
batch loop keeps the cursor unchanged and stops - so the cursor never
advances past the malformed event and it is re-delivered on every
subsequent poll rather than skipped. -/
theorem malformed_event_returns_false_no_advance (ev : Json) (o : LedgerOutcome)
    (c : Int) (rest : List Json) (outs : List LedgerOutcome)
    (h : wellFormedEvent ev = false) :
    process_task_event ev o = (false, []) ∧
    processBatch c (ev :: rest) (o :: outs) [] = ⟨c, [], false⟩ := by
  have hp := process_task_event_malformed ev o h
  exact ⟨hp, by simp [processBatch, hp]⟩

/-- Witness for C10: the theorem applied at an event lacking the `data`
payload. -/
theorem malformed_event_returns_false_no_advance_witness :
    process_task_event sampleMalformed .confirmed = (false, []) ∧
    processBatch 3 [sampleMalformed] [.confirmed] [] = ⟨3, [], false⟩ :=
  malformed_event_returns_false_no_advance sampleMalformed .confirmed 3 [] []
    (by decide)

/-! ## Claim C7 - the bid-price computation -/

/-- C7 (counterexample): the computed bid price is not
`floor(max_budget * bid_ratio)` for every ratio in (0, 1]: with
`max_budget = 100` and configured ratio 0.29, the binary64 evaluation of
`int(max_budget * bid_price_ratio)` yields 28 (the double nearest 0.29 is
slightly below it, and `100 * 0.29` rounds to `28.999999999999996`), while
`floor(100 * 0.29) = 29`. -/
theorem bid_price_not_exact_floor :
    bid_price_calc 100 (float_of_frac 29 100) = 28 ∧
    (⌊(100 : ℚ) * (29 / 100)⌋ : Int) = 29 ∧
    (28 : Int) ≠ 29 := by
  refine ⟨by decide, ?_, by decide⟩
  norm_num

/-- C7 (amended): the Bid Submitter computes
`bid_price = int(max_budget * bid_price_ratio)` in binary64 floating-point
arithmetic, which may differ by one from the exact
`floor(max_budget * bid_ratio)` (see the counterexample); for the
scenario-A inputs `max_budget = 100000000` and default ratio 0.8 the result
is exactly 80000000, as the claim's instance states. -/
theorem bid_price_binary64_values :
    bid_price_calc 100000000 bid_ratio_default = 80000000 ∧
    bid_price_calc 100 (float_of_frac 29 100) = 28 := by
  exact ⟨by decide, by decide⟩

/-! ## Claim C5 - the poll-interval wait -/

/-- C5 (code bug): when a poll finds no new events the code runs
`asyncio.wait_for(asyncio.sleep(poll_interval), timeout=1.0)`, whose
`TimeoutError` fires after 1 second and is caught with `continue`; with the
default `poll_interval = 30` the loop therefore waits only 1 second, not
the configured 30, before the next feed query - contradicting the
configuration surface (`MONITOR_POLL_INTERVAL`, announced at startup).  The
extended backoff after a poll/query exception is likewise cut from the
intended 10 seconds to 1 second. -/
theorem poll_wait_truncated_to_one_second :
    default_poll_interval = 30 ∧
    (stepCycle default_poll_interval 0 emptyPollWorld).wait
      = some ((wait_for_sleep default_poll_interval 1).1) ∧
    (wait_for_sleep default_poll_interval 1).1 = 1 ∧
    (wait_for_sleep default_poll_interval 1).2 = true ∧
    (1 : ℚ) ≠ 30 ∧
    (stepCycle default_poll_interval 0 raisingQueryWorld).wait
      = some ((wait_for_sleep 10 1).1) ∧
    (wait_for_sleep 10 1).1 = 1 ∧
    (1 : ℚ) ≠ 10 := by
  refine ⟨rfl, rfl, ?_, ?_, ?_, rfl, ?_, ?_⟩
  · show min (30 : ℚ) 1 = 1
    norm_num
  · show decide ((1 : ℚ) < 30) = true
    norm_num
  · norm_num
  · show min (10 : ℚ) 1 = 1
    norm_num
  · norm_num

/-! ## Claim C8 - transient feed failures -/

/-- C8: for every transport-level failure of the feed query - a network
timeout / connection failure, an HTTP error status, an undecodable response
body, or a GraphQL-level error reported in the response - the query function
returns the empty event list, and the monitoring cycle run with such a
response behaves exactly like an empty poll: cursor unchanged, nothing
saved, no early exit, normal poll-interval wait - the failure is not
escalated and the loop keeps polling. -/
theorem transient_feed_errors_empty_result (resp : QueryOutcome) (pi : ℚ)
    (c : Int) (w : CycleWorld)
    (h : resp = .timeout ∨ resp = .httpError ∨ resp = .badBody ∨
         ∃ j, resp = .body j ∧ pyContains j "errors" = .ok true)
    (hw : w.resp = resp) :
    query_indexer_for_new_tasks resp = .ok (Json.arr []) ∧
    (stepCycle pi c w).cursor = c ∧
    (stepCycle pi c w).saves = [] ∧
    (stepCycle pi c w).exitEarly = false ∧
    (stepCycle pi c w).wait = some ((wait_for_sleep pi 1).1) := by
  have hq : query_indexer_for_new_tasks resp = .ok (Json.arr []) := by
    rcases h with rfl | rfl | rfl | ⟨j, rfl, hj⟩
    · rfl
    · rfl
    · rfl
    · simp [query_indexer_for_new_tasks, hj]
  refine ⟨hq, ?_, ?_, ?_, ?_⟩ <;>
    simp [stepCycle, hw, hq, jsonFalsy]

/-- Witness for C8: the theorem applied at a network timeout. -/
theorem transient_feed_errors_empty_result_witness :
    query_indexer_for_new_tasks .timeout = .ok (Json.arr []) ∧
    (stepCycle 30 5 ⟨false, .timeout, [], []⟩).cursor = 5 ∧
    (stepCycle 30 5 ⟨false, .timeout, [], []⟩).saves = [] ∧
    (stepCycle 30 5 ⟨false, .timeout, [], []⟩).exitEarly = false ∧
    (stepCycle 30 5 ⟨false, .timeout, [], []⟩).wait
      = some ((wait_for_sleep 30 1).1) :=
  transient_feed_errors_empty_result .timeout 30 5 ⟨false, .timeout, [], []⟩
    (Or.inl rfl) rfl

/-! ## Claim C9 - the shape of every feed query -/

/-- C9: every feed query the monitor issues carries the filter
`sequence_number > cursor`, ascending order and page limit 25; consequently
the indexer's answer to it contains only events with sequence number
strictly greater than the cursor, in ascending order, and at most 25 of
them. -/
theorem feed_query_constraints (p et : String) (c : Int)
    (log : List (Int × Json)) :
    (query_request p et c).seq_gt = c ∧
    (query_request p et c).ascending = true ∧
    (query_request p et c).limit = 25 ∧
    (∀ e ∈ feedAnswer log (query_request p et c), c < e.1) ∧
    List.Sorted (fun a b => a.1 ≤ b.1) (feedAnswer log (query_request p et c)) ∧
    (feedAnswer log (query_request p et c)).length ≤ 25 := by
  refine ⟨rfl, rfl, rfl, ?_, ?_, ?_⟩
  · intro e he
    have h1 := List.mem_of_mem_take he
    rw [List.mem_insertionSort] at h1
    have h2 := List.of_mem_filter h1
    exact of_decide_eq_true h2
  · exact ((List.sorted_insertionSort _ _).sublist (List.take_sublist _ _))
  · exact List.length_take_le _ _

/-! ## Claim C2 - no advancement past a transiently failed event -/

/-- Any event of a log short enough to fit one page, with sequence number
above the query's threshold, appears in the indexer's answer. -/
theorem mem_feedAnswer {log : List (Int × Json)} {e : Int × Json}
    {q : FeedQuery} (hm : e ∈ log) (hgt : q.seq_gt < e.1)
    (hlen : log.length ≤ q.limit) :
    e ∈ feedAnswer log q := by
  unfold feedAnswer
  have h1 : e ∈ log.filter (fun x => decide (q.seq_gt < x.1)) :=
    List.mem_filter.mpr ⟨hm, decide_eq_true hgt⟩
  have hlen2 : ((log.filter (fun x => decide (q.seq_gt < x.1))).insertionSort
      (fun a b => a.1 ≤ b.1)).length ≤ q.limit := by
    rw [List.length_insertionSort]
    exact le_trans (List.length_filter_le _ _) hlen
  rw [List.take_of_length_le hlen2, List.mem_insertionSort]
  exact h1

theorem getLastD_lt {l : List Int} {c N : Int} (hc : c < N)
    (hl : ∀ x ∈ l, x < N) : l.getLastD c < N := by
  induction l generalizing c with
  | nil => exact hc
  | cons a l ih =>
    rw [List.getLastD_cons]
    exact ih (hl a (.head _)) (fun x hx => hl x (.tail _ hx))

/-- Running the batch loop on a prefix of well-formed events whose bids all
confirm, followed by an event whose bid fails, saves exactly the prefix's
sequence numbers, ends with the cursor at the last confirmed sequence number
(the starting cursor if none), and never touches the events after the
failed one. -/
theorem processBatch_stops (evs1 : List Json) (c : Int) (evN : Json)
    (rest : List Json) (o : LedgerOutcome) (outs2 : List LedgerOutcome)
    (h1 : ∀ ev ∈ evs1, wellFormedEvent ev = true)
    (ho : o ≠ .confirmed) :
    processBatch c (evs1 ++ evN :: rest)
        (List.replicate evs1.length .confirmed ++ o :: outs2) []
      = ⟨(evs1.filterMap eventSeq).getLastD c,
         (evs1.filterMap eventSeq).map (fun s => ⟨s, .process⟩), false⟩ := by
  induction evs1 generalizing c with
  | nil =>
    have hp := process_task_event_nonconfirmed evN ho
    simp [processBatch, hp]
  | cons ev evs1 ih =>
    obtain ⟨s, hs, hp⟩ := process_task_event_confirmed ev (h1 ev (.head _))
    have htail : ∀ e ∈ evs1, wellFormedEvent e = true :=
      fun e he => h1 e (.tail _ he)
    simp only [List.cons_append, List.length_cons, List.replicate_succ,
      List.filterMap_cons, hs, List.getLastD_cons, List.map_cons]
    simp only [processBatch, List.headD_cons, List.headD_nil, List.tail_cons,
      List.tail_nil, hp, hs, ih s htail]
    simp

/-- C2 (amended): if the bid for event N fails with a transient error after
the earlier events of the batch were confirmed, the batch stops at N (the
result is the same as if the later events were absent), every persisted
value and the cycle-final cursor stay strictly below N (the cursor equals
the last confirmed sequence number of the batch, which is the pre-cycle
value only when N headed the batch), and N satisfies the next poll's query
filter, so it is re-offered on the next tick. -/
theorem batch_stops_cursor_below_failed (c sN : Int) (evs1 rest : List Json)
    (evN : Json) (o : LedgerOutcome) (outs2 : List LedgerOutcome)
    (p et : String) (log : List (Int × Json))
    (h1 : ∀ ev ∈ evs1, wellFormedEvent ev = true)
    (ho : o ≠ .confirmed)
    (_hN : eventSeq evN = some sN)
    (hlt : ∀ s ∈ evs1.filterMap eventSeq, s < sN)
    (hc : c < sN)
    (hmem : (sN, evN) ∈ log) (hlen : log.length ≤ 25) :
    (processBatch c (evs1 ++ evN :: rest)
        (List.replicate evs1.length .confirmed ++ o :: outs2) []).cursor < sN ∧
    (∀ s ∈ (processBatch c (evs1 ++ evN :: rest)
        (List.replicate evs1.length .confirmed ++ o :: outs2) []).saves,
      s.value < sN) ∧
    (processBatch c (evs1 ++ evN :: rest)
        (List.replicate evs1.length .confirmed ++ o :: outs2) []).early = false ∧
    processBatch c (evs1 ++ evN :: rest)
        (List.replicate evs1.length .confirmed ++ o :: outs2) []
      = processBatch c (evs1 ++ [evN])
          (List.replicate evs1.length .confirmed ++ [o]) [] ∧
    (sN, evN) ∈ feedAnswer log (query_request p et
        (processBatch c (evs1 ++ evN :: rest)
          (List.replicate evs1.length .confirmed ++ o :: outs2) []).cursor) := by
  have hmain := processBatch_stops evs1 c evN rest o outs2 h1 ho
  have hshort := processBatch_stops evs1 c evN [] o [] h1 ho
  have hcur : (processBatch c (evs1 ++ evN :: rest)
      (List.replicate evs1.length .confirmed ++ o :: outs2) []).cursor
        = (evs1.filterMap eventSeq).getLastD c := by rw [hmain]
  have hlast : (evs1.filterMap eventSeq).getLastD c < sN := getLastD_lt hc hlt
  refine ⟨?_, ?_, ?_, ?_, ?_⟩
  · rw [hcur]; exact hlast
  · intro s hsmem
    rw [hmain] at hsmem
    obtain ⟨v, hv, rfl⟩ := List.mem_map.mp hsmem
    exact hlt v hv
  · rw [hmain]
  · rw [hmain, hshort]
  · exact mem_feedAnswer hmem (by rw [hcur]; exact hlast) hlen

/-- Witness for C2: the amended theorem applied to the batch
`[event 5 (confirmed), event 6 (transport error)]` from cursor 4. -/
theorem batch_stops_cursor_below_failed_witness :
    (processBatch 4 ([sampleEvent 5] ++ sampleEvent 6 :: [])
        (List.replicate 1 .confirmed ++ .transportError :: []) []).cursor < 6 ∧
    (∀ s ∈ (processBatch 4 ([sampleEvent 5] ++ sampleEvent 6 :: [])
        (List.replicate 1 .confirmed ++ .transportError :: []) []).saves,
      s.value < 6) ∧
    (processBatch 4 ([sampleEvent 5] ++ sampleEvent 6 :: [])
        (List.replicate 1 .confirmed ++ .transportError :: []) []).early = false ∧
    processBatch 4 ([sampleEvent 5] ++ sampleEvent 6 :: [])
        (List.replicate 1 .confirmed ++ .transportError :: []) []
      = processBatch 4 ([sampleEvent 5] ++ [sampleEvent 6])
          (List.replicate 1 .confirmed ++ [.transportError]) [] ∧
    (6, sampleEvent 6) ∈ feedAnswer [(6, sampleEvent 6)] (query_request "p" "e"
        (processBatch 4 ([sampleEvent 5] ++ sampleEvent 6 :: [])
          (List.replicate 1 .confirmed ++ .transportError :: []) []).cursor) := by
  have hlist : [sampleEvent 5].length = 1 := rfl
  exact hlist ▸ batch_stops_cursor_below_failed 4 6 [sampleEvent 5] []
    (sampleEvent 6) .transportError [] "p" "e" [(6, sampleEvent 6)]
    (by decide) (by decide) rfl (by decide) (by decide)
    (List.Mem.head _) (by decide)

/-- C2 (counterexample): with pre-cycle cursor 4 and a batch in which event
5 confirms and event 6 then fails in transit, the persisted cursor after the
cycle is 5 - the claim's "equals its pre-cycle value" (4) is false; only
"does not reach N" holds. -/
theorem cursor_not_precycle_after_partial_batch :
    (stepCycle 30 4 failAfterSuccessWorld).cursor = 5 ∧
    (stepCycle 30 4 failAfterSuccessWorld).saves = [⟨5, .process⟩] ∧
    (5 : Int) ≠ 4 := by
  refine ⟨rfl, rfl, by decide⟩

/-! ## Claim C3 - cursor monotonicity -/

/-- Invariant of one batch pass: if the feed delivered its events with
strictly ascending sequence numbers above the starting cursor, then the
cursor never moves backwards, every saved value lies between the starting
and the final cursor, the saved values are non-decreasing, every saved value
is the starting cursor or the value of some confirmed-submission
(process-tagged) save, and the final cursor likewise. -/
theorem processBatch_inv (evs : List Json) (c : Int) (outs : List LedgerOutcome)
    (sds : List Bool)
    (h : ascendingFrom c (evs.filterMap eventSeq) = true) :
    c ≤ (processBatch c evs outs sds).cursor ∧
    (∀ s ∈ (processBatch c evs outs sds).saves,
      c ≤ s.value ∧ s.value ≤ (processBatch c evs outs sds).cursor) ∧
    List.Pairwise (· ≤ ·) ((processBatch c evs outs sds).saves.map Save.value) ∧
    (∀ s ∈ (processBatch c evs outs sds).saves,
      s.value = c ∨ ∃ s2 ∈ (processBatch c evs outs sds).saves,
        s2.tag = SaveTag.process ∧ s2.value = s.value) ∧
    ((processBatch c evs outs sds).cursor = c ∨
      ∃ s2 ∈ (processBatch c evs outs sds).saves,
        s2.tag = SaveTag.process ∧ s2.value = (processBatch c evs outs sds).cursor) := by
  induction evs generalizing c outs sds with
  | nil =>
    simp [processBatch]
  | cons ev evs ih =>
    by_cases hsd : sds.headD false
    · have heq : processBatch c (ev :: evs) outs sds
          = ⟨c, [⟨c, .shutdownCheck⟩], true⟩ := by
        rw [processBatch, if_pos hsd]
      rw [heq]
      simp [List.pairwise_singleton]
    · rcases hpe : process_task_event ev (outs.headD .transportError) with ⟨b, l⟩
      cases b with
      | false =>
        have heq : processBatch c (ev :: evs) outs sds = ⟨c, [], false⟩ := by
          rw [processBatch, if_neg hsd]
          simp only [hpe]
        simp [heq]
      | true =>
        obtain ⟨s, hs, hl, _⟩ := process_task_event_true hpe
        subst hl
        have hh : c < s ∧ ascendingFrom s (evs.filterMap eventSeq) = true := by
          simpa [List.filterMap_cons, hs, ascendingFrom] using h
        obtain ⟨hcs, hasc⟩ := hh
        obtain ⟨ih1, ih2, ih3, ih4, ih5⟩ := ih s outs.tail sds.tail hasc
        have heq : processBatch c (ev :: evs) outs sds
            = ⟨(processBatch s evs outs.tail sds.tail).cursor,
               ⟨s, .process⟩ :: (processBatch s evs outs.tail sds.tail).saves,
               (processBatch s evs outs.tail sds.tail).early⟩ := by
          rw [processBatch, if_neg hsd]
          simp only [hpe, hs, List.map_cons, List.map_nil, List.singleton_append]
        rw [heq]
        refine ⟨le_trans hcs.le ih1, ?_, ?_, ?_, ?_⟩
        · intro t ht
          rcases List.mem_cons.mp ht with rfl | ht2
          · exact ⟨hcs.le, ih1⟩
          · exact ⟨hcs.le.trans (ih2 t ht2).1, (ih2 t ht2).2⟩
        · rw [List.map_cons]
          refine List.Pairwise.cons ?_ ih3
          intro v hv
          obtain ⟨t, ht, rfl⟩ := List.mem_map.mp hv
          exact (ih2 t ht).1
        · intro t ht
          rcases List.mem_cons.mp ht with rfl | ht2
          · exact Or.inr ⟨⟨s, .process⟩, List.mem_cons_self _ _, rfl, rfl⟩
          · rcases ih4 t ht2 with hval | ⟨s2, hs2m, hs2t, hs2v⟩
            · exact Or.inr ⟨⟨s, .process⟩, List.mem_cons_self _ _, rfl, hval.symm⟩
            · exact Or.inr ⟨s2, List.mem_cons_of_mem _ hs2m, hs2t, hs2v⟩
        · rcases ih5 with hcur | ⟨s2, hs2m, hs2t, hs2v⟩
          · exact Or.inr ⟨⟨s, .process⟩, List.mem_cons_self _ _, rfl, hcur.symm⟩
          · exact Or.inr ⟨s2, List.mem_cons_of_mem _ hs2m, hs2t, hs2v⟩

/-- In every branch of a poll cycle - query failure, empty result, raising
iteration, batch processing - the cursor, the saves and the early-exit flag
coincide with those of the batch pass over the events the cycle actually
iterates (an empty pass when there are none). -/
theorem stepCycle_eq (pi : ℚ) (c : Int) (w : CycleWorld) :
    (stepCycle pi c w).cursor
      = (processBatch c (cycleEvents w) w.outcomes w.shutdownDuring).cursor ∧
    (stepCycle pi c w).saves
      = (processBatch c (cycleEvents w) w.outcomes w.shutdownDuring).saves ∧
    (stepCycle pi c w).exitEarly
      = (processBatch c (cycleEvents w) w.outcomes w.shutdownDuring).early := by
  cases hq : query_indexer_for_new_tasks w.resp with
  | error e => simp [stepCycle, cycleEvents, hq, processBatch]
  | ok j =>
    by_cases hf : jsonFalsy j
    · simp [stepCycle, cycleEvents, hq, hf, processBatch]
    · cases hi : iterEvents j with
      | error e => simp [stepCycle, cycleEvents, hq, hf, hi, processBatch]
      | ok events =>
        by_cases he : (processBatch c events w.outcomes w.shutdownDuring).early
        · simp [stepCycle, cycleEvents, hq, hf, hi, he]
        · simp [stepCycle, cycleEvents, hq, hf, hi, he]

/-- Invariant of a whole `monitor_tasks` run (the analogue of
`processBatch_inv` for `runMonitor`), provided the feed honors its
interface contract throughout. -/
theorem runMonitor_inv (ws : List CycleWorld) (pi : ℚ) (c : Int)
    (h : goodFeed pi c ws = true) :
    c ≤ cursorOf (runMonitor pi c ws) ∧
    (∀ s ∈ savesOf (runMonitor pi c ws),
      c ≤ s.value ∧ s.value ≤ cursorOf (runMonitor pi c ws)) ∧
    List.Pairwise (· ≤ ·) ((savesOf (runMonitor pi c ws)).map Save.value) ∧
    (∀ s ∈ savesOf (runMonitor pi c ws),
      s.value = c ∨ ∃ s2 ∈ savesOf (runMonitor pi c ws),
        s2.tag = SaveTag.process ∧ s2.value = s.value) ∧
    (cursorOf (runMonitor pi c ws) = c ∨
      ∃ s2 ∈ savesOf (runMonitor pi c ws),
        s2.tag = SaveTag.process ∧ s2.value = cursorOf (runMonitor pi c ws)) := by
  induction ws generalizing c with
  | nil => simp [runMonitor, cursorOf, savesOf]
  | cons w ws ih =>
    have hfeed : ascendingFrom c ((cycleEvents w).filterMap eventSeq) = true ∧
        goodFeed pi (stepCycle pi c w).cursor ws = true := by
      simpa [goodFeed] using h
    obtain ⟨hasc, htail⟩ := hfeed
    obtain ⟨hec, hes, hee⟩ := stepCycle_eq pi c w
    obtain ⟨hb1, hb2, hb3, hb4, hb5⟩ :=
      processBatch_inv (cycleEvents w) c w.outcomes w.shutdownDuring hasc
    rw [← hec] at hb1 hb2 hb5
    rw [← hes] at hb2 hb3 hb4 hb5
    by_cases hst : w.shutdownAtTop
    · have heq : runMonitor pi c (w :: ws) = .exited c [⟨c, .final⟩] := by
        rw [runMonitor, if_pos hst]
      rw [heq]
      simp [cursorOf, savesOf, List.pairwise_singleton]
    · by_cases he : (stepCycle pi c w).exitEarly
      · have heq : runMonitor pi c (w :: ws)
            = .exited (stepCycle pi c w).cursor
                ((stepCycle pi c w).saves ++ [⟨(stepCycle pi c w).cursor, .final⟩]) := by
          rw [runMonitor, if_neg hst, if_pos he]
        rw [heq]
        simp only [cursorOf, savesOf]
        refine ⟨hb1, ?_, ?_, ?_, ?_⟩
        · intro t ht
          rcases List.mem_append.mp ht with ht1 | ht2
          · exact ⟨(hb2 t ht1).1, (hb2 t ht1).2⟩
          · rw [List.mem_singleton.mp ht2]
            exact ⟨hb1, le_refl _⟩
        · rw [List.map_append]
          refine List.pairwise_append.mpr ⟨hb3, ?_, ?_⟩
          · simp [List.pairwise_singleton]
          · intro a ha b hb
            obtain ⟨t, ht, rfl⟩ := List.mem_map.mp ha
            simp only [List.map_cons, List.map_nil, List.mem_singleton] at hb
            rw [hb]
            exact (hb2 t ht).2
        · intro t ht
          rcases List.mem_append.mp ht with ht1 | ht2
          · rcases hb4 t ht1 with hval | ⟨s2, hs2m, hs2t, hs2v⟩
            · exact Or.inl hval
            · exact Or.inr ⟨s2, List.mem_append_left _ hs2m, hs2t, hs2v⟩
          · rw [List.mem_singleton.mp ht2]
            rcases hb5 with hcur | ⟨s2, hs2m, hs2t, hs2v⟩
            · exact Or.inl hcur
            · exact Or.inr ⟨s2, List.mem_append_left _ hs2m, hs2t, hs2v⟩
        · rcases hb5 with hcur | ⟨s2, hs2m, hs2t, hs2v⟩
          · exact Or.inl hcur
          · exact Or.inr ⟨s2, List.mem_append_left _ hs2m, hs2t, hs2v⟩
      · obtain ⟨ih1, ih2, ih3, ih4, ih5⟩ := ih (stepCycle pi c w).cursor htail
        have heq : cursorOf (runMonitor pi c (w :: ws))
              = cursorOf (runMonitor pi (stepCycle pi c w).cursor ws) ∧
            savesOf (runMonitor pi c (w :: ws))
              = (stepCycle pi c w).saves
                  ++ savesOf (runMonitor pi (stepCycle pi c w).cursor ws) := by
          rw [runMonitor, if_neg hst, if_neg he]
          cases runMonitor pi (stepCycle pi c w).cursor ws with
          | running c2 s2 => exact ⟨rfl, rfl⟩
          | exited c2 s2 => exact ⟨rfl, rfl⟩
        obtain ⟨heqc, heqs⟩ := heq
        rw [heqc, heqs]
        have hcc : c ≤ (stepCycle pi c w).cursor := hb1
        refine ⟨le_trans hcc ih1, ?_, ?_, ?_, ?_⟩
        · intro t ht
          rcases List.mem_append.mp ht with ht1 | ht2
          · exact ⟨(hb2 t ht1).1, le_trans (hb2 t ht1).2 ih1⟩
          · exact ⟨le_trans hcc (ih2 t ht2).1, (ih2 t ht2).2⟩
        · rw [List.map_append]
          refine List.pairwise_append.mpr ⟨hb3, ih3, ?_⟩
          intro a ha b hb
          obtain ⟨t, ht, rfl⟩ := List.mem_map.mp ha
          obtain ⟨u, hu, rfl⟩ := List.mem_map.mp hb
          exact le_trans (hb2 t ht).2 (ih2 u hu).1
        · intro t ht
          rcases List.mem_append.mp ht with ht1 | ht2
          · rcases hb4 t ht1 with hval | ⟨s2, hs2m, hs2t, hs2v⟩
            · exact Or.inl hval
            · exact Or.inr ⟨s2, List.mem_append_left _ hs2m, hs2t, hs2v⟩
          · rcases ih4 t ht2 with hval | ⟨s2, hs2m, hs2t, hs2v⟩
            · rcases hb5 with hcur | ⟨s2, hs2m, hs2t, hs2v⟩
              · exact Or.inl (hval.trans hcur)
              · exact Or.inr ⟨s2, List.mem_append_left _ hs2m, hs2t,
                  hs2v.trans hval.symm⟩
            · exact Or.inr ⟨s2, List.mem_append_right _ hs2m, hs2t, hs2v⟩
        · rcases ih5 with hcur | ⟨s2, hs2m, hs2t, hs2v⟩
          · rcases hb5 with hcur2 | ⟨s2, hs2m, hs2t, hs2v⟩
            · exact Or.inl (hcur.trans hcur2)
            · exact Or.inr ⟨s2, List.mem_append_left _ hs2m, hs2t,
                hs2v.trans hcur.symm⟩
          · exact Or.inr ⟨s2, List.mem_append_right _ hs2m, hs2t, hs2v⟩

theorem le_foldr_max_self {l : List Int} (b : Int) : b ≤ l.foldr max b := by
  induction l with
  | nil => exact le_refl b
  | cons a l ih => exact le_trans ih (le_max_right a _)

theorem le_foldr_max_of_mem {l : List Int} {a b : Int} (h : a ∈ l) :
    a ≤ l.foldr max b := by
  induction l with
  | nil => cases h
  | cons x l ih =>
    rcases List.mem_cons.mp h with rfl | h2
    · exact le_max_left _ _
    · exact le_trans (ih h2) (le_max_right _ _)

/-- C3: across any sequence of poll cycles in which the feed honors its
interface contract, the chronological trace of persisted cursor values is
non-decreasing (starting from the loaded value `c0`); every persisted value
is the starting value or the sequence number of an event whose bid
submission received ledger confirmation (a process-tagged save happens
exactly on the confirmation path); and hence no persisted value exceeds the
maximum of `c0` and the confirmed sequence numbers - the cursor never
advances past the last confirmed submission. -/
theorem cursor_monotone_and_confirmed (pi : ℚ) (c0 : Int) (ws : List CycleWorld)
    (h : goodFeed pi c0 ws = true) :
    List.Chain' (· ≤ ·)
      (c0 :: (savesOf (runMonitor pi c0 ws)).map Save.value) ∧
    (∀ s ∈ savesOf (runMonitor pi c0 ws),
      s.value = c0 ∨ ∃ s2 ∈ savesOf (runMonitor pi c0 ws),
        s2.tag = SaveTag.process ∧ s2.value = s.value) ∧
    (∀ s ∈ savesOf (runMonitor pi c0 ws),
      s.value ≤ ((((savesOf (runMonitor pi c0 ws)).filter
          (fun t => t.tag == SaveTag.process)).map Save.value).foldr max c0)) := by
  obtain ⟨h1, h2, h3, h4, h5⟩ := runMonitor_inv ws pi c0 h
  refine ⟨?_, h4, ?_⟩
  · rw [List.chain'_iff_pairwise]
    refine List.Pairwise.cons ?_ h3
    intro v hv
    obtain ⟨t, ht, rfl⟩ := List.mem_map.mp hv
    exact (h2 t ht).1
  · intro s hsm
    rcases h4 s hsm with hval | ⟨s2, hs2m, hs2t, hs2v⟩
    · exact hval ▸ le_foldr_max_self c0
    · have hmem : s2.value ∈ ((savesOf (runMonitor pi c0 ws)).filter
          (fun t => t.tag == SaveTag.process)).map Save.value :=
        List.mem_map.mpr ⟨s2, List.mem_filter.mpr ⟨hs2m, by simp [hs2t]⟩, rfl⟩
      exact hs2v ▸ le_foldr_max_of_mem hmem

/-- Witness for C3: the theorem applied to a run from cursor 4 over one
cycle delivering events 5 (confirmed) and 6 (failed in transit). -/
theorem cursor_monotone_and_confirmed_witness :
    List.Chain' (· ≤ ·)
      ((4 : Int) :: (savesOf (runMonitor 30 4 [failAfterSuccessWorld])).map Save.value) :=
  (cursor_monotone_and_confirmed 30 4 [failAfterSuccessWorld] (by decide)).1

/-! ## Claim C4 - the shutdown-path saves -/

/-- The batch pass makes no shutdown-path save unless it returned early, in
which case it makes exactly one, carrying the cursor it returns. -/
theorem processBatch_shutdown_trace (evs : List Json) (c : Int)
    (outs : List LedgerOutcome) (sds : List Bool) :
    ((processBatch c evs outs sds).early = true →
      (processBatch c evs outs sds).saves.filter isShutdownSave
        = [⟨(processBatch c evs outs sds).cursor, .shutdownCheck⟩]) ∧
    ((processBatch c evs outs sds).early = false →
      (processBatch c evs outs sds).saves.filter isShutdownSave = []) := by
  induction evs generalizing c outs sds with
  | nil => simp [processBatch]
  | cons ev evs ih =>
    by_cases hsd : sds.headD false
    · have heq : processBatch c (ev :: evs) outs sds
          = ⟨c, [⟨c, .shutdownCheck⟩], true⟩ := by
        rw [processBatch, if_pos hsd]
      rw [heq]
      simp [isShutdownSave]
    · rcases hpe : process_task_event ev (outs.headD .transportError) with ⟨b, l⟩
      cases b with
      | false =>
        have heq : processBatch c (ev :: evs) outs sds = ⟨c, [], false⟩ := by
          rw [processBatch, if_neg hsd]
          simp only [hpe]
        rw [heq]
        simp
      | true =>
        obtain ⟨s, hs, hl, _⟩ := process_task_event_true hpe
        subst hl
        have heq : processBatch c (ev :: evs) outs sds
            = ⟨(processBatch s evs outs.tail sds.tail).cursor,
               ⟨s, .process⟩ :: (processBatch s evs outs.tail sds.tail).saves,
               (processBatch s evs outs.tail sds.tail).early⟩ := by
          rw [processBatch, if_neg hsd]
          simp only [hpe, hs, List.map_cons, List.map_nil, List.singleton_append]
        rw [heq]
        obtain ⟨ih1, ih2⟩ := ih s outs.tail sds.tail
        constructor
        · intro he
          simpa [isShutdownSave] using ih1 he
        · intro he
          simpa [isShutdownSave] using ih2 he

/-- A full run makes no shutdown-path save while the loop is still going;
when it has exited, the shutdown-path saves are exactly the `finally` save
(signal observed at the loop top), or the line-245 save followed by the
`finally` save (signal observed mid-batch) - both carrying the final
cursor. -/
theorem runMonitor_shutdown_trace (ws : List CycleWorld) (pi : ℚ) (c : Int) :
    (∀ c2 s2, runMonitor pi c ws = .running c2 s2 →
      s2.filter isShutdownSave = []) ∧
    (∀ c2 s2, runMonitor pi c ws = .exited c2 s2 →
      s2.filter isShutdownSave = [⟨c2, .final⟩] ∨
      s2.filter isShutdownSave = [⟨c2, .shutdownCheck⟩, ⟨c2, .final⟩]) := by
  induction ws generalizing c with
  | nil =>
    constructor
    · intro c2 s2 he
      rw [runMonitor] at he
      injection he with hc hs
      rw [← hs]
      rfl
    · intro c2 s2 he
      rw [runMonitor] at he
      exact RunState.noConfusion he
  | cons w ws ih =>
    by_cases hst : w.shutdownAtTop
    · have heq : runMonitor pi c (w :: ws) = .exited c [⟨c, .final⟩] := by
        rw [runMonitor, if_pos hst]
      constructor
      · intro c2 s2 he
        rw [heq] at he
        exact RunState.noConfusion he
      · intro c2 s2 he
        rw [heq] at he
        injection he with hc hs
        subst hc
        rw [← hs]
        exact Or.inl rfl
    · obtain ⟨hec, hes, hee⟩ := stepCycle_eq pi c w
      obtain ⟨hb1, hb2⟩ :=
        processBatch_shutdown_trace (cycleEvents w) c w.outcomes w.shutdownDuring
      by_cases he1 : (stepCycle pi c w).exitEarly
      · have heq : runMonitor pi c (w :: ws)
            = .exited (stepCycle pi c w).cursor
                ((stepCycle pi c w).saves ++ [⟨(stepCycle pi c w).cursor, .final⟩]) := by
          rw [runMonitor, if_neg hst, if_pos he1]
        have hfs : (stepCycle pi c w).saves.filter isShutdownSave
            = [⟨(stepCycle pi c w).cursor, .shutdownCheck⟩] := by
          rw [hes, hec]
          exact hb1 (by rw [← hee]; exact he1)
        constructor
        · intro c2 s2 he
          rw [heq] at he
          exact RunState.noConfusion he
        · intro c2 s2 he
          rw [heq] at he
          injection he with hc hs
          subst hc
          rw [← hs, List.filter_append, hfs]
          exact Or.inr rfl
      · have hfs : (stepCycle pi c w).saves.filter isShutdownSave = [] := by
          rw [hes]
          exact hb2 (by rw [← hee]; simpa using he1)
        obtain ⟨ihr, ihe⟩ := ih (stepCycle pi c w).cursor
        cases hrec : runMonitor pi (stepCycle pi c w).cursor ws with
        | running c2' s2' =>
          have heq : runMonitor pi c (w :: ws) = .running c2' ((stepCycle pi c w).saves ++ s2') := by
            rw [runMonitor, if_neg hst, if_neg he1, hrec]
          constructor
          · intro c2 s2 he
            rw [heq] at he
            injection he with hc hs
            rw [← hs, List.filter_append, hfs, ihr c2' s2' hrec]
            rfl
          · intro c2 s2 he
            rw [heq] at he
            exact RunState.noConfusion he
        | exited c2' s2' =>
          have heq : runMonitor pi c (w :: ws) = .exited c2' ((stepCycle pi c w).saves ++ s2') := by
            rw [runMonitor, if_neg hst, if_neg he1, hrec]
          constructor
          · intro c2 s2 he
            rw [heq] at he
            exact RunState.noConfusion he
          · intro c2 s2 he
            rw [heq] at he
            injection he with hc hs
            subst hc
            rw [← hs, List.filter_append, hfs, List.nil_append]
            exact ihe c2' s2' hrec

/-- C4 (amended): on the shutdown path the final cursor value is persisted
before exit, but not through a single guarded write: the write happens once
when the cancellation signal is observed at the `while` test, and twice when
it is observed at the mid-batch check, because the in-loop save (line 245)
is followed by the `finally` save - `return` does not skip `finally`, and no
latch guards the pair.  All shutdown-path writes carry the same final cursor
value. -/
theorem shutdown_saves_once_or_twice (pi : ℚ) (c0 c2 : Int)
    (ws : List CycleWorld) (s2 : List Save)
    (h : runMonitor pi c0 ws = .exited c2 s2) :
    (s2.filter isShutdownSave = [⟨c2, .final⟩] ∨
     s2.filter isShutdownSave = [⟨c2, .shutdownCheck⟩, ⟨c2, .final⟩]) ∧
    ((s2.filter isShutdownSave).length = 1 ∨
     (s2.filter isShutdownSave).length = 2) ∧
    (∀ s ∈ s2.filter isShutdownSave, s.value = c2) := by
  have hd := (runMonitor_shutdown_trace ws pi c0).2 c2 s2 h
  refine ⟨hd, ?_, ?_⟩
  · rcases hd with h1 | h1 <;> rw [h1] <;> simp
  · intro s hs
    rcases hd with h1 | h1 <;> rw [h1] at hs <;>
      simp only [List.mem_cons, List.mem_singleton, List.not_mem_nil,
        or_false] at hs
    · subst hs
      rfl
    · rcases hs with rfl | rfl <;> rfl

/-- Witness for C4: the amended theorem applied to a run that observes the
signal at the loop top. -/
theorem shutdown_saves_once_or_twice_witness :
    (([⟨0, SaveTag.final⟩] : List Save).filter isShutdownSave
        = [⟨0, .final⟩] ∨
     ([⟨0, SaveTag.final⟩] : List Save).filter isShutdownSave
        = [⟨0, .shutdownCheck⟩, ⟨0, .final⟩]) ∧
    ((([⟨0, SaveTag.final⟩] : List Save).filter isShutdownSave).length = 1 ∨
     (([⟨0, SaveTag.final⟩] : List Save).filter isShutdownSave).length = 2) ∧
    (∀ s ∈ ([⟨0, SaveTag.final⟩] : List Save).filter isShutdownSave,
      s.value = 0) :=
  shutdown_saves_once_or_twice 30 0 0 [shutdownTopWorld] [⟨0, .final⟩] rfl

/-- C4 (counterexample): when the cancellation signal is observed at the
mid-batch check, the shutdown path writes the final cursor twice - the
line-245 save and then the `finally` save - so "exactly once, guarded by a
single shutdown latch" is false (there is no latch in the code). -/
theorem shutdown_double_save :
    runMonitor 30 0 [midBatchShutdownWorld]
      = .exited 0 [⟨0, .shutdownCheck⟩, ⟨0, .final⟩] ∧
    ((savesOf (runMonitor 30 0 [midBatchShutdownWorld])).filter
        isShutdownSave).length = 2 ∧
    (2 : Nat) ≠ 1 := by
  refine ⟨rfl, rfl, by decide⟩

end BiddingMonitor
